import Mathlib

/-!
Formal model of the orchestration core of the local email agent
(supervisor / HITL gate / sub-agent loop in `email_agent/agent_graph.py`,
the resume endpoints in `email_agent/api.py`, and the storage layer in
`email_agent/email_storage.py`).

Python dictionaries are modelled as ordered association lists over a small
JSON-like value type `Val`; python string slicing `s[:n]` is `pyTake`;
python truthiness is `Val.truthy`.  Strings embed apostrophes and braces
via hexadecimal escapes.
-/

namespace EmailAgent

/-- JSON-compatible python value (the subset the agent code manipulates):
`None`, strings, integers and (insertion-ordered) dictionaries. -/
inductive Val where
  | null : Val
  | vstr : String → Val
  | vint : Int → Val
  | vdict : List (String × Val) → Val

/-- Python truthiness of a `Val` (`bool(v)`). -/
def Val.truthy : Val → Bool
  | .null => false
  | .vstr s => !(s == "")
  | .vint n => !(n == 0)
  | .vdict m => !m.isEmpty

/-- `d.get(k)` on an association-list dictionary: first binding wins. -/
def dGet (m : List (String × Val)) (k : String) : Option Val :=
  (m.find? (fun p => p.1 == k)).map (fun p => p.2)

/-- `d.get(k, default)`. -/
def dGetD (m : List (String × Val)) (k : String) (d : Val) : Val :=
  (dGet m k).getD d

/-- `d[k] = v`: replace an existing binding in place, else append. -/
def dSet (m : List (String × Val)) (k : String) (v : Val) : List (String × Val) :=
  if m.any (fun p => p.1 == k) then
    m.map (fun p => if p.1 == k then (k, v) else p)
  else
    m ++ [(k, v)]

/-- Python `repr` of a value (`None`, quoted strings, `str` of ints,
brace-delimited dictionaries). -/
def Val.pyRepr : Val → String
  | .null => "None"
  | .vstr s => "\x27" ++ s ++ "\x27"
  | .vint n => toString n
  | .vdict m => "\x7b" ++ String.intercalate ", " (pyReprEntries m) ++ "\x7d"
where
  pyReprEntries : List (String × Val) → List String
    | [] => []
    | (k, v) :: rest => ("\x27" ++ k ++ "\x27: " ++ Val.pyRepr v) :: pyReprEntries rest

/-- Python `str(v)`: identity on strings, `repr` otherwise. -/
def Val.pyStr : Val → String
  | .vstr s => s
  | v => v.pyRepr

/-- Python string slice `s[:n]` (first `n` code points). -/
def pyTake (s : String) (n : Nat) : String :=
  String.mk (s.toList.take n)

theorem pyTake_length (s : String) (n : Nat) : (pyTake s n).length ≤ n := by
  show (s.toList.take n).length ≤ n
  exact (s.toList.length_take_le n)

/-- A tool call attached to an assistant message
(`dict` with `name`, `args`, `id` as built by the supervisor). -/
structure ToolCall where
  name : String
  args : Val
  callId : String

/-- A LangChain message in the run's message log: `HumanMessage`,
`AIMessage` (with its list of tool calls) or `ToolMessage`.  The numeric
`id` models the message identifier used by the message channel to merge
updates. -/
inductive Msg where
  | human (id : Nat) (content : String)
  | ai (id : Nat) (content : String) (toolCalls : List ToolCall)
  | toolMsg (id : Nat) (name : String) (content : String)

/-- The identifier of a message. -/
def Msg.msgId : Msg → Nat
  | .human i _ => i
  | .ai i _ _ => i
  | .toolMsg i _ _ => i

/-- `getattr(msg, "tool_calls", [])`: only assistant messages carry tool
calls. -/
def Msg.toolCalls : Msg → List ToolCall
  | .ai _ _ tcs => tcs
  | _ => []

/-- Number of tool calls on a message when it is an assistant message. -/
def Msg.aiToolCallCount : Msg → Nat
  | .ai _ _ tcs => tcs.length
  | _ => 0

/-- Whether a message is an assistant (`AIMessage`) message. -/
def Msg.isAi : Msg → Bool
  | .ai _ _ _ => true
  | _ => false

/-- Whether a message is a tool-result (`ToolMessage`) message. -/
def Msg.isToolMsg : Msg → Bool
  | .toolMsg _ _ _ => true
  | _ => false

/-- `"Done"` terminal tool call present among a message's tool calls. -/
def hasDone (tcs : List ToolCall) : Bool :=
  tcs.any (fun tc => tc.name == "Done")

/-- The `answer` argument of a tool call
(`tc.get("args", \x7b\x7d).get("answer", "")` rendered by the f-string). -/
def doneAnswer (tc : ToolCall) : String :=
  match tc.args with
  | .vdict m => (dGetD m "answer" (.vstr "")).pyStr
  | _ => (Val.vstr "").pyStr

/-- The `"Assistant: <answer>"` lines contributed by the `Done` tool calls
of one assistant message, in order. -/
def doneLines : List ToolCall → List String
  | [] => []
  | tc :: rest =>
      (if tc.name == "Done" then ["Assistant: " ++ doneAnswer tc] else []) ++ doneLines rest

/-- Formatting of a fresh tool result for the current turn
(`f"Tool \x27...\x27 returned: ..."` with the content truncated to 500). -/
def fmtFresh (name content : String) : String :=
  "Tool \x27" ++ name ++ "\x27 returned: " ++ pyTake content 500 ++ "..."

/-- Formatting of an archived tool result from a previous exchange
(`f"[Previous] Tool \x27...\x27: ..."` with the content truncated to 300). -/
def fmtPrev (name content : String) : String :=
  "[Previous] Tool \x27" ++ name ++ "\x27: " ++ pyTake content 300 ++ "..."

/-- The three views the supervisor derives from the message log
(`conversation_history`, `tool_results_for_current_turn`,
`previous_tool_results`) together with the final open question. -/
structure ReconcileResult where
  conversationHistory : List String
  freshToolResults : List String
  previousToolResults : List String
  openQuestion : Option String

/-- The reconciliation loop of `supervisor` (agent_graph.py lines 461-491):
walk the log in order, tracking `current_question_in_messages` (set by each
user message, cleared by a `Done` tool call), classifying tool-result
messages as fresh for the current turn or as previous context. -/
def reconcileAux (userMessage : String) (q : Option String) : List Msg → ReconcileResult
  | [] => ⟨[], [], [], q⟩
  | .human _ c :: rest =>
      let r := reconcileAux userMessage (some c) rest
      { r with conversationHistory := ("User: " ++ c) :: r.conversationHistory }
  | .ai _ c tcs :: rest =>
      if tcs.isEmpty then
        if c == "" then reconcileAux userMessage q rest
        else
          let r := reconcileAux userMessage q rest
          { r with conversationHistory := ("Assistant: " ++ c) :: r.conversationHistory }
      else
        let r := reconcileAux userMessage (if hasDone tcs then none else q) rest
        { r with conversationHistory := doneLines tcs ++ r.conversationHistory }
  | .toolMsg _ nm c :: rest =>
      let r := reconcileAux userMessage q rest
      if q == some userMessage then
        { r with freshToolResults := fmtFresh nm c :: r.freshToolResults }
      else
        { r with previousToolResults := fmtPrev nm c :: r.previousToolResults }

/-- Reconciliation of a full log against the current input. -/
def reconcile (messages : List Msg) (userMessage : String) : ReconcileResult :=
  reconcileAux userMessage none messages

/-- The question open after one more message, in the words of the
specification: set by the latest user message, cleared by a terminal `Done`
tool call, untouched by anything else. -/
def openStep (q : Option String) : Msg → Option String
  | .human _ c => some c
  | .ai _ _ tcs => if hasDone tcs then none else q
  | .toolMsg _ _ _ => q

/-- Specification-side classifier: the fresh tool results are exactly the
tool-result messages at whose position the currently open question equals
the current input. -/
def freshSpec (input : String) (q : Option String) : List Msg → List String
  | [] => []
  | m :: rest =>
      (match m with
       | .toolMsg _ nm c => if q == some input then [fmtFresh nm c] else []
       | _ => []) ++ freshSpec input (openStep q m) rest

/-- Specification-side classifier for the archived side: tool-result
messages at whose position the open question differs from the current
input are archived into prior context. -/
def prevSpec (input : String) (q : Option String) : List Msg → List String
  | [] => []
  | m :: rest =>
      (match m with
       | .toolMsg _ nm c => if q == some input then [] else [fmtPrev nm c]
       | _ => []) ++ prevSpec input (openStep q m) rest

theorem reconcileAux_fresh_eq_freshSpec (input : String) (q : Option String)
    (msgs : List Msg) :
    (reconcileAux input q msgs).freshToolResults = freshSpec input q msgs := by
  induction msgs generalizing q with
  | nil => rfl
  | cons m rest ih =>
    cases m with
    | human i c =>
      simp [reconcileAux, freshSpec, openStep, ih]
    | ai i c tcs =>
      by_cases he : tcs.isEmpty
      · have hd : hasDone tcs = false := by
          cases tcs with
          | nil => rfl
          | cons a l => simp [List.isEmpty] at he
        by_cases hc : c == ""
        · simp [reconcileAux, freshSpec, openStep, he, hc, hd, ih]
        · simp [reconcileAux, freshSpec, openStep, he, hc, hd, ih]
      · simp [reconcileAux, freshSpec, openStep, he, ih]
    | toolMsg i nm c =>
      by_cases hq : q == some input
      · simp [reconcileAux, freshSpec, openStep, hq, ih]
      · simp [reconcileAux, freshSpec, openStep, hq, ih]

theorem reconcileAux_prev_eq_prevSpec (input : String) (q : Option String)
    (msgs : List Msg) :
    (reconcileAux input q msgs).previousToolResults = prevSpec input q msgs := by
  induction msgs generalizing q with
  | nil => rfl
  | cons m rest ih =>
    cases m with
    | human i c =>
      simp [reconcileAux, prevSpec, openStep, ih]
    | ai i c tcs =>
      by_cases he : tcs.isEmpty
      · have hd : hasDone tcs = false := by
          cases tcs with
          | nil => rfl
          | cons a l => simp [List.isEmpty] at he
        by_cases hc : c == ""
        · simp [reconcileAux, prevSpec, openStep, he, hc, hd, ih]
        · simp [reconcileAux, prevSpec, openStep, he, hc, hd, ih]
      · simp [reconcileAux, prevSpec, openStep, he, ih]
    | toolMsg i nm c =>
      by_cases hq : q == some input
      · simp [reconcileAux, prevSpec, openStep, hq, ih]
      · simp [reconcileAux, prevSpec, openStep, hq, ih]

/-! ## Supervisor node (agent_graph.py lines 431-639) -/

/-- Structured output of the tool-selecting model call
(`ToolCallRequest(tool_name, tool_args)`). -/
structure ToolCallRequest where
  tool_name : String
  tool_args : List (String × Val)

/-- Outcome of `llm_tool_selector.invoke`: either a parsed
`ToolCallRequest` or an exception (parse failure). -/
inductive SelOutcome where
  | parsed (req : ToolCallRequest)
  | failed (e : String)

/-- Argument repair performed by the supervisor (lines 596-609): tools that
require a `request`/`query` argument get it defaulted from the user
message when missing or falsy; `search_email_history` additionally pins
`top_k` (to its present value or 5). -/
def fixToolArgs (name : String) (args : List (String × Val)) (userMessage : String) :
    List (String × Val) :=
  if name == "manage_calendar" && !(dGetD args "request" .null).truthy then
    dSet args "request" (.vstr userMessage)
  else if name == "manage_email" && !(dGetD args "request" .null).truthy then
    dSet args "request" (.vstr userMessage)
  else if name == "search_email_history" && !(dGetD args "query" .null).truthy then
    dSet (dSet args "query" (.vstr userMessage)) "top_k" (dGetD args "top_k" (.vint 5))
  else
    args

/-- The message update returned by one `supervisor` pass, as a function of
the resolved user input (`None` when neither `question` nor `email_input`
is present), the existing log, and the tool-selector outcome.  `aiId`,
`humanId` and `cid` stand for the freshly generated message and call
identifiers. -/
def supervisorStep (input : Option String) (messages : List Msg)
    (outcome : SelOutcome) (aiId humanId : Nat) (cid : String) : List Msg :=
  match input with
  | none => [.ai aiId "No input provided." []]
  | some userMessage =>
    let history := (reconcile messages userMessage).conversationHistory
    let currentUserInHistory := history.any (fun h => h == "User: " ++ userMessage)
    let needHuman := messages.isEmpty || !currentUserInHistory
    match outcome with
    | .failed e =>
        if needHuman then
          [.human humanId userMessage, .ai aiId ("Error: " ++ e) []]
        else
          [.ai aiId ("Error: " ++ e) []]
    | .parsed req =>
        let args := fixToolArgs req.tool_name req.tool_args userMessage
        let aiMsg : Msg := .ai aiId "" [⟨req.tool_name, .vdict args, cid⟩]
        if needHuman then [.human humanId userMessage, aiMsg] else [aiMsg]

/-! ## HITL approval gate (agent_graph.py lines 641-697, hitl_schemas.py) -/

/-- Tools that require human approval (`HITL_TOOL_NAMES`). -/
def HITL_TOOL_NAMES : List String :=
  ["send-mail", "create-calendar-event", "create-specific-calendar-event",
   "manage_email", "Question"]

/-- What the human is allowed to do with an interrupt
(`HumanInterruptConfig`). -/
structure HumanInterruptConfig where
  allow_ignore : Bool
  allow_respond : Bool
  allow_edit : Bool
  allow_accept : Bool

/-- Per-tool interrupt configuration (`get_hitl_config`): `Question` only
allows respond/ignore, everything else allows all four actions. -/
def get_hitl_config (toolName : String) : HumanInterruptConfig :=
  if toolName == "Question" then ⟨true, true, false, false⟩ else ⟨true, true, true, true⟩

/-- The entries of an args value when it is a dictionary (tool-call args
always are in practice). -/
def argEntries : Val → List (String × Val)
  | .vdict m => m
  | _ => []

/-- Auto-generated human-readable description of an action
(`_generate_description` in hitl_schemas.py). -/
def genDescription (action : String) (args : List (String × Val)) : String :=
  if action == "send-mail" then
    let toRecip := dGetD args "to" (dGetD args "toRecipients" (.vstr "unknown"))
    let subject := dGetD args "subject" (.vstr "no subject")
    "Send email to " ++ toRecip.pyStr ++ ": \"" ++ subject.pyStr ++ "\""
  else if action == "create-calendar-event" || action == "create-specific-calendar-event" then
    let subject := dGetD args "subject" (.vstr "Untitled event")
    let start := dGetD args "start" (dGetD args "startDateTime" (.vstr "unknown"))
    "Create calendar event: \"" ++ subject.pyStr ++ "\" at " ++ start.pyStr
  else if action == "Question" then
    "Agent is asking: " ++ (dGetD args "question" (.vstr "")).pyStr
  else if action == "manage_email" then
    "Email action: " ++ pyTake (dGetD args "request" (.vstr "")).pyStr 100 ++ "..."
  else if action == "schedule_event" then
    "Calendar action: " ++ pyTake (dGetD args "request" (.vstr "")).pyStr 100 ++ "..."
  else
    action ++ "(" ++
      String.intercalate ", " ((args.take 3).map (fun p => p.1 ++ "=" ++ p.2.pyStr)) ++ ")"

/-- Interrupt payload handed to the UI (`HumanInterrupt` /
`create_interrupt` with auto-generated description). -/
structure HumanInterrupt where
  action : String
  args : Val
  config : HumanInterruptConfig
  description : String

/-- `create_interrupt(action, args, description=None)`. -/
def create_interrupt (action : String) (args : Val) : HumanInterrupt :=
  ⟨action, args, get_hitl_config action, genDescription action (argEntries args)⟩

/-- Python exception raised inside the gate (attribute access on a
non-dictionary). -/
inductive PyErr where
  | attributeError

/-- What the `hitl_gate` node produces: a `messages` channel update, the
unchanged state (with any in-place tool-call edits), a suspension waiting
on a human decision, or a raised exception. -/
inductive GateOutcome where
  | update (msgs : List Msg)
  | state (msgs : List Msg)
  | awaiting (intr : HumanInterrupt)
  | error (e : PyErr)

/-- One run of the gate: how many interrupts were raised, and the final
outcome. -/
structure GateRun where
  interrupts : Nat
  outcome : GateOutcome

/-- Whether a value equals a given python string (`v == "s"`). -/
def isStrV (v : Val) (s : String) : Bool :=
  match v with
  | .vstr t => t == s
  | _ => false

/-- Replace the last message's tool-call list (the in-place mutation of
`last_message.tool_calls` seen by a `return state`). -/
def setLastToolCalls (msgs : List Msg) (tcs : List ToolCall) : List Msg :=
  match msgs.getLast? with
  | none => msgs
  | some (.ai i c _) => msgs.dropLast ++ [.ai i c tcs]
  | some m => msgs.dropLast ++ [m]

/-- Replace the args of tool call 0 (`last_message.tool_calls[0]["args"] =
new_args`). -/
def editCall0 (cur : List ToolCall) (newArgs : Val) : List ToolCall :=
  match cur with
  | [] => []
  | c0 :: rest => { c0 with args := newArgs } :: rest

/-- The loop of `hitl_gate` over the last message's tool calls.  `origMsgs`
is the state's message list, `cur` the current (possibly edited) tool-call
list of the last message, `rem` the calls still to examine, `responses`
the human decisions supplied at successive interrupts (the gate suspends,
`.awaiting`, when a HITL call is reached with none left), `n` the number
of interrupts raised so far, and `freshId` the identifier for a human
message appended by a `response` decision. -/
def gateLoop (origMsgs : List Msg) (cur : List ToolCall) (rem : List ToolCall)
    (responses : List Val) (n : Nat) (freshId : Nat) : GateRun :=
  match rem with
  | [] => ⟨n, .state (setLastToolCalls origMsgs cur)⟩
  | tc :: rest =>
    if HITL_TOOL_NAMES.contains tc.name then
      match responses with
      | [] => ⟨n + 1, .awaiting (create_interrupt tc.name tc.args)⟩
      | resp :: rs =>
        match resp with
        | .vdict d =>
          let rtype := dGetD d "type" (.vstr "accept")
          let rargs := dGetD d "args" .null
          if isStrV rtype "ignore" then
            ⟨n + 1, .update origMsgs.dropLast⟩
          else if isStrV rtype "edit" && rargs.truthy then
            match rargs with
            | .vdict m =>
                let newArgs := (dGet m "args").getD tc.args
                gateLoop origMsgs (editCall0 cur newArgs) rest rs (n + 1) freshId
            | _ => ⟨n + 1, .error .attributeError⟩
          else if isStrV rtype "response" then
            ⟨n + 1, .update (setLastToolCalls origMsgs cur ++ [.human freshId rargs.pyStr])⟩
          else
            gateLoop origMsgs cur rest rs (n + 1) freshId
        | _ => gateLoop origMsgs cur rest rs (n + 1) freshId
    else
      gateLoop origMsgs cur rest responses n freshId

/-- The `hitl_gate` node (lines 641-697): pass the state through when the
last message carries no tool calls, otherwise walk its tool calls,
interrupting on each approval-gated one and applying the human decision. -/
def hitl_gate (msgs : List Msg) (responses : List Val) (freshId : Nat) : GateRun :=
  match msgs.getLast? with
  | none => ⟨0, .state msgs⟩
  | some last =>
    if last.toolCalls.isEmpty then ⟨0, .state msgs⟩
    else gateLoop msgs last.toolCalls last.toolCalls responses 0 freshId

/-- Routing targets after the gate. -/
inductive Route where
  | tools
  | supervisor
  | endRun

/-- `after_hitl` (lines 722-738): execute tool calls if the last message
has any, return to the supervisor on a human message, otherwise end. -/
def after_hitl (msgs : List Msg) : Route :=
  match msgs.getLast? with
  | none => .endRun
  | some last =>
    if !last.toolCalls.isEmpty then .tools
    else
      match last with
      | .human _ _ => .supervisor
      | _ => .endRun

/-- Modelled from the spec: `email_agent.schemas.State` is not in the
source tree, so its `messages` channel semantics is taken from the
specification's data model ("Ordering is significant and append-only
within a run; never mutated after append except by the Approval Gate's
edit path"): a node's message update is merged by message identifier —
a message whose identifier is already in the log replaces that entry in
place, any other message is appended (the behavior of the standard
LangGraph `add_messages` reducer the schema is declared with). -/
def applyMessageUpdate (log update : List Msg) : List Msg :=
  update.foldl
    (fun acc m =>
      if acc.any (fun x => x.msgId == m.msgId) then
        acc.map (fun x => if x.msgId == m.msgId then m else x)
      else
        acc ++ [m])
    log

/-! ## Sub-agent loop (agent_graph.py lines 172-260) -/

/-- Outcome of one `llm_tool_selector.invoke` call inside the sub-agent
loop: a parsed `ToolCallRequest`, or an exception whose text is `e`
(JSON parse failure). -/
inductive LLMOutcome where
  | parsed (req : ToolCallRequest)
  | parseError (e : String)

/-- The sub-agent's tool environment: the names in `tools_by_name` and the
behavior of invoking a tool (`.ok` carries `str(result)`, `.error` the
exception text). -/
structure SubAgentEnv where
  toolNames : List String
  runTool : String → List (String × Val) → Except String String

/-- Python `repr` of a list of strings
(`f"...\x7blist(tools_by_name.keys())\x7d"`). -/
def pyListRepr (names : List String) : String :=
  "[" ++ String.intercalate ", " (names.map (fun s => "\x27" ++ s ++ "\x27")) ++ "]"

/-- Mutable state of the sub-agent loop: accumulated `tool_results` lines
and `last_raw_result`. -/
structure SubSt where
  toolResults : List String
  lastRaw : Option String

/-- Python truthiness of `last_raw_result` (`None` and `""` are falsy). -/
def rawTruthy (r : Option String) : Bool :=
  match r with
  | none => false
  | some s => !(s == "")

/-- The fallback answer used when `last_raw_result` is available
(`last_raw_result[:2000]`). -/
def rawFallback (st : SubSt) : String :=
  pyTake (st.lastRaw.getD "") 2000

/-- The sub-agent loop (`run_sub_agent`): at each iteration the model is
consulted (`script i` gives the outcome of the i-th call); a `DONE`
request returns its answer, an unknown tool or tool exception records an
error line, a successful tool records its truncated output and the raw
result; a parse failure returns the truncated raw result when truthy
results exist, else an error answer; exhausting `max_iterations` falls
back on the raw result, the joined result lines, or a fixed message. -/
def runSubAgentAux (env : SubAgentEnv) (script : Nat → LLMOutcome) :
    Nat → Nat → SubSt → String
  | _, 0, st =>
    if rawTruthy st.lastRaw then rawFallback st
    else if !st.toolResults.isEmpty then String.intercalate "\n" st.toolResults
    else "Could not complete the request."
  | i, fuel + 1, st =>
    match script i with
    | .parseError e =>
        if !st.toolResults.isEmpty && rawTruthy st.lastRaw then rawFallback st
        else "Error: " ++ e
    | .parsed req =>
        if req.tool_name == "DONE" then
          match dGet req.tool_args "answer" with
          | some v => v.pyStr
          | none => "Task completed."
        else if !(env.toolNames.contains req.tool_name) then
          runSubAgentAux env script (i + 1) fuel
            { st with toolResults := st.toolResults ++
                ["Error: Tool \x27" ++ req.tool_name ++ "\x27 not found. Available: " ++
                 pyListRepr env.toolNames] }
        else
          match env.runTool req.tool_name req.tool_args with
          | .ok r =>
              runSubAgentAux env script (i + 1) fuel
                { toolResults := st.toolResults ++
                    ["Tool \x27" ++ req.tool_name ++ "\x27 returned: " ++ pyTake r 1500],
                  lastRaw := some r }
          | .error e =>
              runSubAgentAux env script (i + 1) fuel
                { st with toolResults := st.toolResults ++
                    ["Tool \x27" ++ req.tool_name ++ "\x27 error: " ++ e] }

/-- `run_sub_agent` with its default `max_iterations = 5`. -/
def run_sub_agent (env : SubAgentEnv) (script : Nat → LLMOutcome) : String :=
  runSubAgentAux env script 0 5 ⟨[], none⟩

/-! ## Resume endpoints (api.py `resume_thread`, `resume_thread_stream`) -/

/-- Outcome of the resumed graph execution, as far as the endpoint's
post-processing observes it: the graph completed, stopped at another
interrupt, or raised. -/
inductive GraphOut where
  | completed
  | interruptedAgain
  | errored (e : String)

/-- What a resume endpoint returns to its caller. -/
inductive ResumeResult where
  | httpError (code : Nat) (detail : String)
  | response (status : String)
  | streaming

/-- The thread store: thread identifier to status
(`interrupted` / `idle` / `busy` / `error`). -/
abbrev ThreadStore := List (String × String)

/-- `thread_store.get_thread`. -/
def getThread (ts : ThreadStore) (tid : String) : Option String :=
  (ts.find? (fun p => p.1 == tid)).map (fun p => p.2)

/-- `thread_store.update_thread(tid, status=s)`. -/
def setThreadStatus (ts : ThreadStore) (tid : String) (s : String) : ThreadStore :=
  ts.map (fun p => if p.1 == tid then (p.1, s) else p)

/-- `POST /threads/.../resume` (`resume_thread`): 404 on unknown thread,
400 when the thread is not interrupted (before any store mutation);
otherwise mark busy, resume the graph, and record the final status. -/
def resume_thread (ts : ThreadStore) (tid : String) (g : GraphOut) :
    ThreadStore × ResumeResult :=
  match getThread ts tid with
  | none => (ts, .httpError 404 ("Thread " ++ tid ++ " not found"))
  | some st =>
    if !(st == "interrupted") then
      (ts, .httpError 400 ("Thread " ++ tid ++ " is not interrupted (status: " ++ st ++ ")"))
    else
      let busy := setThreadStatus ts tid "busy"
      match g with
      | .interruptedAgain => (setThreadStatus busy tid "interrupted", .response "interrupted")
      | .completed => (setThreadStatus busy tid "idle", .response "completed")
      | .errored e => (setThreadStatus busy tid "error", .httpError 500 e)

/-- `POST /threads/.../resume/stream` (`resume_thread_stream`): the same
guards, then mark busy and hand off to the streaming runner. -/
def resume_thread_stream (ts : ThreadStore) (tid : String) :
    ThreadStore × ResumeResult :=
  match getThread ts tid with
  | none => (ts, .httpError 404 ("Thread " ++ tid ++ " not found"))
  | some st =>
    if !(st == "interrupted") then
      (ts, .httpError 400 ("Thread " ++ tid ++ " is not interrupted (status: " ++ st ++ ")"))
    else
      (setThreadStatus ts tid "busy", .streaming)

/-! ## SHA-256 (the `hashlib.sha256` used by `store_email`) -/

/-- Truncation to a 32-bit word. -/
def w32 (n : Nat) : Nat := n % 4294967296

/-- Right rotation of a 32-bit word. -/
def rotr (x n : Nat) : Nat := w32 ((x >>> n) ||| (x <<< (32 - n)))

/-- Bitwise complement of a 32-bit word. -/
def not32 (x : Nat) : Nat := 4294967295 ^^^ x

/-- The SHA-256 round constants (FIPS 180-4, in decimal). -/
def shaK : List Nat :=
  [1116352408, 1899447441, 3049323471, 3921009573,
   961987163, 1508970993, 2453635748, 2870763221,
   3624381080, 310598401, 607225278, 1426881987,
   1925078388, 2162078206, 2614888103, 3248222580,
   3835390401, 4022224774, 264347078, 604807628,
   770255983, 1249150122, 1555081692, 1996064986,
   2554220882, 2821834349, 2952996808, 3210313671,
   3336571891, 3584528711, 113926993, 338241895,
   666307205, 773529912, 1294757372, 1396182291,
   1695183700, 1986661051, 2177026350, 2456956037,
   2730485921, 2820302411, 3259730800, 3345764771,
   3516065817, 3600352804, 4094571909, 275423344,
   430227734, 506948616, 659060556, 883997877,
   958139571, 1322822218, 1537002063, 1747873779,
   1955562222, 2024104815, 2227730452, 2361852424,
   2428436474, 2756734187, 3204031479, 3329325298]

/-- Big-endian 64-bit encoding of the message length in bits. -/
def be64 (n : Nat) : List Nat :=
  [56, 48, 40, 32, 24, 16, 8, 0].map (fun s => (n >>> s) % 256)

/-- SHA-256 padding: append `0x80`, zeros to 56 mod 64, then the bit
length. -/
def sha256Pad (msg : List Nat) : List Nat :=
  let L := msg.length
  let z := (119 - L % 64) % 64
  msg ++ [0x80] ++ List.replicate z 0 ++ be64 (8 * L)

/-- Split a byte list into 64-byte blocks (fuelled by the list length: each
step consumes at least one byte). -/
def chunks64Aux : Nat → List Nat → List (List Nat)
  | 0, _ => []
  | _, [] => []
  | fuel + 1, b :: rest => ((b :: rest).take 64) :: chunks64Aux fuel ((b :: rest).drop 64)

/-- Split a byte list into 64-byte blocks. -/
def chunks64 (l : List Nat) : List (List Nat) :=
  chunks64Aux l.length l

/-- Big-endian 32-bit words of a byte list. -/
def beWords : List Nat → List Nat
  | b0 :: b1 :: b2 :: b3 :: rest =>
      (b0 * 16777216 + b1 * 65536 + b2 * 256 + b3) :: beWords rest
  | _ => []

/-- The small sigma functions of the message schedule. -/
def ssig0 (x : Nat) : Nat := (rotr x 7) ^^^ (rotr x 18) ^^^ (x >>> 3)

/-- The small sigma-1 function of the message schedule. -/
def ssig1 (x : Nat) : Nat := (rotr x 17) ^^^ (rotr x 19) ^^^ (x >>> 10)

/-- Extend a 16-word block schedule by `n` more words. -/
def extendSchedule (w : List Nat) : Nat → List Nat
  | 0 => w
  | n + 1 =>
      let t := w.length
      let nw := w32 (ssig1 (w.getD (t - 2) 0) + w.getD (t - 7) 0 +
                     ssig0 (w.getD (t - 15) 0) + w.getD (t - 16) 0)
      extendSchedule (w ++ [nw]) n

/-- The eight 32-bit working registers of the compression function. -/
structure H8 where
  a : Nat
  b : Nat
  c : Nat
  d : Nat
  e : Nat
  f : Nat
  g : Nat
  h : Nat

/-- One SHA-256 compression round for round constant `k` and schedule word
`w`. -/
def compressStep (s : H8) (kw : Nat × Nat) : H8 :=
  let S1 := (rotr s.e 6) ^^^ (rotr s.e 11) ^^^ (rotr s.e 25)
  let ch := (s.e &&& s.f) ^^^ ((not32 s.e) &&& s.g)
  let temp1 := w32 (s.h + S1 + ch + kw.1 + kw.2)
  let S0 := (rotr s.a 2) ^^^ (rotr s.a 13) ^^^ (rotr s.a 22)
  let maj := (s.a &&& s.b) ^^^ (s.a &&& s.c) ^^^ (s.b &&& s.c)
  let temp2 := w32 (S0 + maj)
  ⟨w32 (temp1 + temp2), s.a, s.b, s.c, w32 (s.d + temp1), s.e, s.f, s.g⟩

/-- Compress one 64-byte block into the running hash. -/
def compressBlock (hs : H8) (block : List Nat) : H8 :=
  let ws := extendSchedule (beWords block) 48
  let s := (shaK.zip ws).foldl compressStep hs
  ⟨w32 (hs.a + s.a), w32 (hs.b + s.b), w32 (hs.c + s.c), w32 (hs.d + s.d),
   w32 (hs.e + s.e), w32 (hs.f + s.f), w32 (hs.g + s.g), w32 (hs.h + s.h)⟩

/-- Big-endian bytes of a 32-bit word. -/
def wordBytes (w : Nat) : List Nat :=
  [(w >>> 24) % 256, (w >>> 16) % 256, (w >>> 8) % 256, w % 256]

/-- The SHA-256 initial hash value (FIPS 180-4, in decimal). -/
def h8Init : H8 :=
  ⟨1779033703, 3144134277, 1013904242, 2773480762,
   1359893119, 2600822924, 528734635, 1541459225⟩

/-- SHA-256 of a byte string, as its 32 digest bytes. -/
def sha256 (msg : List Nat) : List Nat :=
  let fin := (chunks64 (sha256Pad msg)).foldl compressBlock h8Init
  wordBytes fin.a ++ wordBytes fin.b ++ wordBytes fin.c ++ wordBytes fin.d ++
  wordBytes fin.e ++ wordBytes fin.f ++ wordBytes fin.g ++ wordBytes fin.h

/-- Lower-case hex character of a nibble. -/
def hexChar (n : Nat) : Char :=
  if n < 10 then Char.ofNat (48 + n) else Char.ofNat (87 + n)

/-- Two-character hex rendering of a byte. -/
def byteHex (b : Nat) : String :=
  String.mk [hexChar (b / 16), hexChar (b % 16)]

/-- `hexdigest()` of a digest: the concatenated two-character hex renderings
of its bytes. -/
def hexDigest : List Nat → String
  | [] => ""
  | b :: rest => byteHex b ++ hexDigest rest

/-- UTF-8 bytes of a code point (`str.encode()`). -/
def utf8Char (c : Nat) : List Nat :=
  if c < 128 then [c]
  else if c < 2048 then
    [192 ||| (c >>> 6), 128 ||| (c &&& 63)]
  else if c < 65536 then
    [224 ||| (c >>> 12), 128 ||| ((c >>> 6) &&& 63), 128 ||| (c &&& 63)]
  else
    [240 ||| (c >>> 18), 128 ||| ((c >>> 12) &&& 63),
     128 ||| ((c >>> 6) &&& 63), 128 ||| (c &&& 63)]

/-- UTF-8 encoding of a string. -/
def strBytes (s : String) : List Nat :=
  s.data.foldr (fun ch acc => utf8Char ch.toNat ++ acc) []

/-! ## Email storage (email_storage.py) -/

/-- A stored email record (the dictionary keys `bulk_import_emails`
documents: author, to, subject, body, received_at). -/
structure Email where
  author : String
  toAddr : String
  subject : String
  body : String
  received_at : String

/-- The deterministic email identifier derived in `store_email` (lines
266-268): the first 16 hex digits of the SHA-256 of the concatenated
author, subject and body. -/
def emailId (e : Email) : String :=
  pyTake (hexDigest (sha256 (strBytes (e.author ++ e.subject ++ e.body)))) 16

/-- `store_email` on the local filesystem backend, as a transition on the
map from identifier to stored file: a duplicate identifier returns `None`
and leaves the store untouched, otherwise the email is stored under its
identifier. -/
def store_email (stored : List (String × Email)) (e : Email) :
    Option String × List (String × Email) :=
  let id := emailId e
  if stored.any (fun p => p.1 == id) then (none, stored)
  else (some id, stored ++ [(id, e)])

/-- A search hit as `_text_search` builds it. -/
structure SearchResult where
  score : Nat
  content : String
  snippet : String
  author : String
  subject : String
  email_id : String
deriving DecidableEq

/-- Python `str.lower()` (the emails handled here are ASCII). -/
def pyLower (s : String) : String :=
  String.mk (s.toList.map Char.toLower)

/-- Word collector for `str.split()`: `cur` holds the reversed characters
of the word being read. -/
def pyWordsAux (cur : List Char) : List Char → List String
  | [] => if cur.isEmpty then [] else [String.mk cur.reverse]
  | c :: rest =>
      if c.isWhitespace then
        if cur.isEmpty then pyWordsAux [] rest
        else String.mk cur.reverse :: pyWordsAux [] rest
      else pyWordsAux (c :: cur) rest

/-- Python `str.split()`: the maximal whitespace-free words, in order. -/
def pySplit (s : String) : List String :=
  pyWordsAux [] s.toList

/-- Whether the first character list is an initial segment of the second. -/
def startsWithChars : List Char → List Char → Bool
  | [], _ => true
  | _ :: _, [] => false
  | a :: as, b :: bs => a == b && startsWithChars as bs

/-- Whether a character list occurs contiguously inside another. -/
def infixChars (needle : List Char) : List Char → Bool
  | [] => startsWithChars needle []
  | c :: rest => startsWithChars needle (c :: rest) || infixChars needle rest

/-- Python substring test `needle in hay`. -/
def containsSub (hay needle : String) : Bool :=
  infixChars needle.toList hay.toList

/-- Stable insertion into a list sorted by descending score. -/
def insertByScore (x : SearchResult) : List SearchResult → List SearchResult
  | [] => [x]
  | y :: ys => if x.score ≥ y.score then x :: y :: ys else y :: insertByScore x ys

/-- Stable sort by descending score
(`results.sort(key=lambda x: x["score"], reverse=True)`). -/
def sortByScoreDesc (l : List SearchResult) : List SearchResult :=
  l.foldr insertByScore []

/-- The candidate result `_text_search` builds for one stored email, `none`
when no query word occurs in its text. -/
def textCandidate (qwords : List String) (e : Email) (eid : String) :
    Option SearchResult :=
  let text := e.author ++ " " ++ e.subject ++ " " ++ e.body
  let textLower := pyLower text
  let score := qwords.countP (fun w => containsSub textLower w)
  if score > 0 then
    some { score := score,
           content := pyTake text 500,
           snippet := if text.length > 200 then pyTake text 200 ++ "..." else text,
           author := e.author,
           subject := e.subject,
           email_id := eid }
  else none

/-- `_text_search` (email_storage.py lines 557-605): score every stored
email by the number of lower-cased query words occurring in its text, keep
the positive scores, sort by descending score and return the first
`top_k`. -/
def _text_search (stored : List (String × Email)) (query : String) (topK : Nat) :
    List SearchResult :=
  let qwords := pySplit (pyLower query)
  let results := stored.filterMap (fun p => textCandidate qwords p.2 p.1)
  (sortByScoreDesc results).take topK

/-- `search` (lines 522-555) in the text-only configuration (no vector
store — the semantic branch delegates entirely to the external pgvector
collaborator): it falls through to `_text_search`. -/
def search (stored : List (String × Email)) (query : String) (topK : Nat) :
    List SearchResult :=
  _text_search stored query topK

/-! ## Helper lemmas -/

/-- Number of tool calls carried by the last message of a log. -/
def lastToolCallCount (msgs : List Msg) : Nat :=
  (msgs.getLast?).elim 0 (fun m => m.toolCalls.length)

theorem gateLoop_interrupts_le (rem : List ToolCall) :
    ∀ (origMsgs : List Msg) (cur : List ToolCall) (responses : List Val) (n fid : Nat),
      (gateLoop origMsgs cur rem responses n fid).interrupts ≤ n + rem.length := by
  induction rem with
  | nil => intro origMsgs cur responses n fid; simp [gateLoop]
  | cons tc rest ih =>
    intro origMsgs cur responses n fid
    unfold gateLoop
    repeat' (first | split | (dsimp only []; split))
    all_goals
      first
        | (refine Nat.le_trans (ih _ _ _ _ _) ?_; simp only [List.length_cons]; omega)
        | (simp only [List.length_cons]; omega)

theorem hitl_gate_interrupts_le (msgs : List Msg) (responses : List Val) (fid : Nat) :
    (hitl_gate msgs responses fid).interrupts ≤ lastToolCallCount msgs := by
  unfold hitl_gate lastToolCallCount
  cases h : msgs.getLast? with
  | none => simp
  | some last =>
    by_cases he : last.toolCalls.isEmpty
    · simp [he]
    · simp only [he, Bool.false_eq_true, if_false, Option.elim]
      simpa using gateLoop_interrupts_le last.toolCalls msgs last.toolCalls responses 0 fid

theorem mem_insertByScore (x z : SearchResult) (l : List SearchResult) :
    z ∈ insertByScore x l ↔ z = x ∨ z ∈ l := by
  induction l with
  | nil => simp [insertByScore]
  | cons y ys ih =>
    by_cases h : x.score ≥ y.score
    · simp [insertByScore, h]
    · simp only [insertByScore, h, if_false, List.mem_cons, ih]
      tauto

theorem pairwise_insertByScore (x : SearchResult) (l : List SearchResult)
    (hl : l.Pairwise (fun a b => b.score ≤ a.score)) :
    (insertByScore x l).Pairwise (fun a b => b.score ≤ a.score) := by
  induction l with
  | nil => simp [insertByScore]
  | cons y ys ih =>
    rcases List.pairwise_cons.mp hl with ⟨hy, hys⟩
    show (if x.score ≥ y.score then x :: y :: ys else y :: insertByScore x ys).Pairwise _
    by_cases h : x.score ≥ y.score
    · rw [if_pos h]
      refine List.pairwise_cons.mpr ⟨?_, hl⟩
      intro z hz
      rcases List.mem_cons.mp hz with hz | hz
      · subst hz; exact h
      · exact Nat.le_trans (hy z hz) h
    · rw [if_neg h]
      refine List.pairwise_cons.mpr ⟨?_, ih hys⟩
      intro z hz
      rcases (mem_insertByScore x z ys).mp hz with hz | hz
      · subst hz; omega
      · exact hy z hz

theorem pairwise_sortByScoreDesc (l : List SearchResult) :
    (sortByScoreDesc l).Pairwise (fun a b => b.score ≤ a.score) := by
  induction l with
  | nil => simp [sortByScoreDesc]
  | cons x xs ih => exact pairwise_insertByScore x (sortByScoreDesc xs) ih

theorem mem_sortByScoreDesc (z : SearchResult) (l : List SearchResult) :
    z ∈ sortByScoreDesc l ↔ z ∈ l := by
  induction l with
  | nil => simp [sortByScoreDesc]
  | cons x xs ih =>
    show z ∈ insertByScore x (sortByScoreDesc xs) ↔ _
    rw [mem_insertByScore]
    simp only [List.mem_cons, ih]

theorem textCandidate_score_pos (qwords : List String) (e : Email) (eid : String)
    (r : SearchResult) (h : textCandidate qwords e eid = some r) : 0 < r.score := by
  simp only [textCandidate] at h
  split at h
  · rename_i hs
    rw [Option.some.injEq] at h
    subst h
    simpa using hs
  · cases h

theorem byteHex_length (b : Nat) : (byteHex b).length = 2 := rfl

theorem hexDigest_length (bs : List Nat) : (hexDigest bs).length = 2 * bs.length := by
  induction bs with
  | nil => rfl
  | cons b rest ih =>
    show (byteHex b ++ hexDigest rest).length = 2 * (rest.length + 1)
    rw [String.length_append, byteHex_length, ih]
    omega

theorem sha256_length (msg : List Nat) : (sha256 msg).length = 32 := by
  simp [sha256, wordBytes]

theorem pyTake_length_eq (s : String) (n : Nat) :
    (pyTake s n).length = min n s.length := by
  show (s.toList.take n).length = min n s.length
  exact List.length_take n s.toList

theorem setLastToolCalls_concat (pre : List Msg) (aiId : Nat) (content : String)
    (tcs tcs2 : List ToolCall) :
    setLastToolCalls (pre ++ [.ai aiId content tcs]) tcs2
      = pre ++ [.ai aiId content tcs2] := by
  unfold setLastToolCalls
  rw [List.getLast?_concat]
  rw [List.dropLast_concat]

/-- Whether a gate outcome is a raised exception. -/
def GateOutcome.isError : GateOutcome → Bool
  | .error _ => true
  | _ => false

/-- The `conversation_history[-10:]` transcript the supervisor embeds in
the tool-selection prompt (agent_graph.py line 498). -/
def promptHistoryLines (msgs : List Msg) (input : String) : List String :=
  ((reconcile msgs input).conversationHistory).drop
    ((reconcile msgs input).conversationHistory.length - 10)

set_option maxRecDepth 10000

/-- The SHA-256 model agrees with the standard test vector for "abc". -/
theorem sha256_abc_vector :
    hexDigest (sha256 (strBytes "abc"))
      = "ba7816bf8f01cfea414140de5dae2223b00361a396177a9cb410ff61f20015ad" := by
  decide

/-! ## Claim fixtures -/

/-- A log holding two completed question/answer exchanges (each with one
tool result) followed by a new user message. -/
def c2Log : List Msg :=
  [.human 0 "q1",
   .ai 1 "" [⟨"manage_calendar", .vdict [("request", .vstr "q1")], "t1"⟩],
   .toolMsg 2 "manage_calendar" "three meetings this week",
   .ai 3 "" [⟨"Done", .vdict [("answer", .vstr "a1")], "t2"⟩],
   .human 4 "q2",
   .ai 5 "" [⟨"search_email_history", .vdict [("query", .vstr "q2")], "t3"⟩],
   .toolMsg 6 "search_email_history" "two related emails",
   .ai 7 "" [⟨"Done", .vdict [("answer", .vstr "a2")], "t4"⟩],
   .human 8 "q3"]

/-- A run suspended on a pending `send-mail` approval. -/
def c3Messages : List Msg :=
  [.human 0 "send hi to alice@example.com",
   .ai 1 "" [⟨"send-mail", .vdict [("to", .vstr "alice@example.com")], "c1"⟩]]

/-- A human decision of type `ignore`. -/
def ignoreDecision : Val := .vdict [("type", .vstr "ignore")]

/-- The wire encoding of a HumanDecision of type `edit` whose payload (the
replacement arguments) is the mapping `payload`: the `args` field carries
the new `ActionRequest` (hitl_schemas.py `HumanResponse`). -/
def editDecision (action : String) (payload : List (String × Val)) : Val :=
  .vdict [("type", .vstr "edit"),
          ("args", .vdict [("action", .vstr action), ("args", .vdict payload)])]

/-- An `edit` decision whose payload is not a mapping (a raw value in the
`args` field). -/
def editRawDecision (payload : Val) : Val :=
  .vdict [("type", .vstr "edit"), ("args", payload)]

/-- A run suspended on a pending `send-mail` approval, for the edit
counterexample. -/
def c5Messages : List Msg :=
  [.human 0 "send the note", .ai 1 "" [⟨"send-mail", .vdict [("to", .vstr "a@example.com")], "c1"⟩]]

/-- A sub-agent environment with no tools. -/
def c6Env : SubAgentEnv := ⟨[], fun _ _ => .error "unused"⟩

/-- A stored email matching the query "lunch". -/
def c9Stored : List (String × Email) :=
  [("id1", ⟨"alice", "bob", "Lunch plans", "let us have lunch", "2024-01-01"⟩)]

/-- The search hit `_text_search` produces for `c9Stored` and "lunch". -/
def c9Hit : SearchResult :=
  { score := 1,
    content := "alice Lunch plans let us have lunch",
    snippet := "alice Lunch plans let us have lunch",
    author := "alice", subject := "Lunch plans", email_id := "id1" }

/-- A tiny email. -/
def c10Email : Email := ⟨"a", "", "", "", ""⟩

/-- The same author/subject/body as `c10Email` with different recipient and
date. -/
def c10EmailB : Email := ⟨"a", "bob@example.com", "", "", "2024"⟩

/-! ## Claims -/

/-- Claim C1, counterexample: when tool selection raises (a parse failure),
the supervisor appends an assistant message that carries zero tool calls,
so "every assistant message the supervisor appends carries exactly one
tool call" fails. -/
theorem supervisor_errorpath_zero_toolcalls :
    supervisorStep (some "hi") [] (.failed "boom") 0 1 "c0"
      = [Msg.human 1 "hi", Msg.ai 0 "Error: boom" []] ∧
    (Msg.ai 0 "Error: boom" []).isAi = true ∧
    (Msg.ai 0 "Error: boom" []).aiToolCallCount = 0 ∧
    ¬((0 : Nat) = 1) := by
  refine ⟨rfl, rfl, rfl, by decide⟩

/-- Claim C1 (amended): every assistant message the supervisor appends
carries at most one tool call — exactly one whenever tool selection
succeeds (the error fallbacks carry none) — and whenever the last message
carries at most one tool call the approval gate raises at most one
approval request in its pass, so at most one approval request is pending
per run at a time. -/
theorem supervisor_toolcalls_le_one_and_gate_single_pending :
    (∀ (input : Option String) (messages : List Msg) (outcome : SelOutcome)
       (aiId humanId : Nat) (cid : String),
       ∀ m ∈ supervisorStep input messages outcome aiId humanId cid,
         m.aiToolCallCount ≤ 1) ∧
    (∀ (u : String) (messages : List Msg) (req : ToolCallRequest)
       (aiId humanId : Nat) (cid : String),
       ((supervisorStep (some u) messages (.parsed req) aiId humanId cid).getLast?).map
         Msg.aiToolCallCount = some 1) ∧
    (∀ (msgs : List Msg) (responses : List Val) (fid : Nat),
       lastToolCallCount msgs ≤ 1 →
       (hitl_gate msgs responses fid).interrupts ≤ 1) := by
  refine ⟨?_, ?_, ?_⟩
  · intro input messages outcome aiId humanId cid m hm
    unfold supervisorStep at hm
    dsimp only [] at hm
    repeat' split at hm
    all_goals
      simp only [List.mem_cons, List.not_mem_nil, or_false] at hm
    all_goals
      rcases hm with rfl | rfl <;> simp [Msg.aiToolCallCount]
  · intro u messages req aiId humanId cid
    unfold supervisorStep
    dsimp only []
    split
    all_goals rfl
  · intro msgs responses fid h
    exact Nat.le_trans (hitl_gate_interrupts_le msgs responses fid) h

/-- Claim C1 witness: concrete instances of the three amended conjuncts. -/
theorem supervisor_toolcalls_le_one_and_gate_single_pending_witness :
    (Msg.human 1 "list my meetings").aiToolCallCount ≤ 1 ∧
    ((supervisorStep (some "list my meetings") [] (.parsed ⟨"manage_calendar", []⟩)
        0 1 "c0").getLast?).map Msg.aiToolCallCount = some 1 ∧
    (hitl_gate c3Messages [] 2).interrupts ≤ 1 := by
  have hstep : supervisorStep (some "list my meetings") [] (.parsed ⟨"manage_calendar", []⟩)
      0 1 "c0"
      = [Msg.human 1 "list my meetings",
         Msg.ai 0 "" [⟨"manage_calendar", .vdict [("request", .vstr "list my meetings")], "c0"⟩]] := rfl
  refine ⟨?_, ?_, ?_⟩
  · exact supervisor_toolcalls_le_one_and_gate_single_pending.1
      (some "list my meetings") [] (.parsed ⟨"manage_calendar", []⟩) 0 1 "c0"
      (Msg.human 1 "list my meetings") (hstep ▸ List.mem_cons_self _ _)
  · exact supervisor_toolcalls_le_one_and_gate_single_pending.2.1
      "list my meetings" [] ⟨"manage_calendar", []⟩ 0 1 "c0"
  · exact supervisor_toolcalls_le_one_and_gate_single_pending.2.2
      c3Messages [] 2 (by decide)

/-- Claim C2: a tool-result message is classified as fresh exactly when the
question open at its position (set by the latest user message, cleared by
a terminal `Done` tool call) equals the current input, otherwise it is
archived into the previous-context view; and on a log of two completed
exchanges followed by a new user message the fresh view is empty while the
prior context holds exactly the two archived results (and the transcript
the two completed exchanges). -/
theorem reconciler_fresh_iff_open_question :
    (∀ (msgs : List Msg) (input : String),
       (reconcile msgs input).freshToolResults = freshSpec input none msgs ∧
       (reconcile msgs input).previousToolResults = prevSpec input none msgs) ∧
    (reconcile c2Log "q3").freshToolResults = [] ∧
    (reconcile c2Log "q3").previousToolResults
      = [fmtPrev "manage_calendar" "three meetings this week",
         fmtPrev "search_email_history" "two related emails"] ∧
    (reconcile c2Log "q3").conversationHistory
      = ["User: q1", "Assistant: a1", "User: q2", "Assistant: a2", "User: q3"] := by
  refine ⟨fun msgs input => ⟨reconcileAux_fresh_eq_freshSpec input none msgs,
    reconcileAux_prev_eq_prevSpec input none msgs⟩, rfl, rfl, rfl⟩

/-- Claim C3 (code bug): the gate answers an `ignore` decision with the
update `messages[:-1]`, but merged through the append-only message channel
this leaves the log identical — length unchanged and no tool-result
appended — so the assistant message still carries the pending `send-mail`
call, and `after_hitl` routes it to the tools node: the ignored call is
executed instead of discarded. -/
theorem ignore_decision_leaves_toolcall_routed_to_tools :
    hitl_gate c3Messages [ignoreDecision] 2
      = ⟨1, .update c3Messages.dropLast⟩ ∧
    applyMessageUpdate c3Messages c3Messages.dropLast = c3Messages ∧
    (applyMessageUpdate c3Messages c3Messages.dropLast).length = c3Messages.length ∧
    ((applyMessageUpdate c3Messages c3Messages.dropLast).filter Msg.isToolMsg).length
      = ((c3Messages.filter Msg.isToolMsg)).length ∧
    after_hitl (applyMessageUpdate c3Messages c3Messages.dropLast) = .tools ∧
    lastToolCallCount (applyMessageUpdate c3Messages c3Messages.dropLast) = 1 := by
  refine ⟨rfl, rfl, rfl, rfl, rfl, rfl⟩

/-- Claim C4: applying an `edit` decision whose payload is the mapping
`payload` replaces the pending call's arguments with exactly `payload`
(not the original arguments) and the edited call is the one routed to the
tools node for execution. -/
theorem edit_decision_executes_payload_args
    (pre : List Msg) (aiId : Nat) (content name : String) (origArgs : Val)
    (cid : String) (payload : List (String × Val)) (fid : Nat)
    (hname : HITL_TOOL_NAMES.contains name = true) :
    hitl_gate (pre ++ [.ai aiId content [⟨name, origArgs, cid⟩]])
        [editDecision name payload] fid
      = ⟨1, .state (pre ++ [.ai aiId content [⟨name, .vdict payload, cid⟩]])⟩ ∧
    after_hitl (pre ++ [.ai aiId content [⟨name, .vdict payload, cid⟩]]) = .tools := by
  constructor
  · unfold hitl_gate
    rw [List.getLast?_concat]
    show gateLoop _ [⟨name, origArgs, cid⟩] [⟨name, origArgs, cid⟩] _ 0 fid = _
    unfold gateLoop
    rw [if_pos hname]
    show gateLoop _ [⟨name, Val.vdict payload, cid⟩] [] [] 1 fid = _
    unfold gateLoop
    rw [setLastToolCalls_concat]
  · unfold after_hitl
    rw [List.getLast?_concat]
    rfl

/-- Claim C4 witness: a concrete edit of a pending `send-mail` call. -/
theorem edit_decision_executes_payload_args_witness :
    hitl_gate [Msg.human 0 "send it", Msg.ai 1 "" [⟨"send-mail", .vdict [("to", .vstr "a@example.com")], "c1"⟩]]
        [editDecision "send-mail" [("to", .vstr "b@example.com")]] 2
      = ⟨1, .state [Msg.human 0 "send it",
           Msg.ai 1 "" [⟨"send-mail", .vdict [("to", .vstr "b@example.com")], "c1"⟩]]⟩ ∧
    after_hitl [Msg.human 0 "send it",
        Msg.ai 1 "" [⟨"send-mail", .vdict [("to", .vstr "b@example.com")], "c1"⟩]] = .tools := by
  exact edit_decision_executes_payload_args [Msg.human 0 "send it"] 1 "" "send-mail"
    (.vdict [("to", .vstr "a@example.com")]) "c1" [("to", .vstr "b@example.com")] 2 (by decide)

/-- Claim C5, counterexample: an `edit` decision whose payload is a truthy
non-mapping (a non-empty string) makes the gate raise an
`AttributeError` — the application fails instead of degrading to an accept
with the original arguments. -/
theorem edit_nonmapping_payload_raises :
    hitl_gate c5Messages [editRawDecision (.vstr "make it shorter")] 2
      = ⟨1, .error .attributeError⟩ ∧
    GateOutcome.isError (.error .attributeError) = true ∧
    GateOutcome.isError (.state c5Messages) = false := by
  refine ⟨rfl, rfl, rfl⟩

/-- Claim C5 (amended): an `edit` decision whose payload is a falsy
non-mapping (`None` or the empty string) is treated as accept with the
original arguments; a truthy non-mapping payload instead raises an
`AttributeError` that fails the application (the action is not silently
dropped, but the fallback is not an accept). -/
theorem edit_nonmapping_payload_fallback_or_error
    (pre : List Msg) (aiId : Nat) (content name : String) (origArgs : Val)
    (cid : String) (fid : Nat)
    (hname : HITL_TOOL_NAMES.contains name = true) :
    (hitl_gate (pre ++ [.ai aiId content [⟨name, origArgs, cid⟩]])
        [editRawDecision .null] fid
      = ⟨1, .state (pre ++ [.ai aiId content [⟨name, origArgs, cid⟩]])⟩) ∧
    (hitl_gate (pre ++ [.ai aiId content [⟨name, origArgs, cid⟩]])
        [editRawDecision (.vstr "")] fid
      = ⟨1, .state (pre ++ [.ai aiId content [⟨name, origArgs, cid⟩]])⟩) ∧
    (∀ s : String, ¬(s = "") →
      hitl_gate (pre ++ [.ai aiId content [⟨name, origArgs, cid⟩]])
          [editRawDecision (.vstr s)] fid
        = ⟨1, .error .attributeError⟩) := by
  refine ⟨?_, ?_, ?_⟩
  · unfold hitl_gate
    rw [List.getLast?_concat]
    show gateLoop _ [⟨name, origArgs, cid⟩] [⟨name, origArgs, cid⟩] _ 0 fid = _
    unfold gateLoop
    rw [if_pos hname]
    show gateLoop _ [⟨name, origArgs, cid⟩] [] [] 1 fid = _
    unfold gateLoop
    rw [setLastToolCalls_concat]
  · unfold hitl_gate
    rw [List.getLast?_concat]
    show gateLoop _ [⟨name, origArgs, cid⟩] [⟨name, origArgs, cid⟩] _ 0 fid = _
    unfold gateLoop
    rw [if_pos hname]
    show gateLoop _ [⟨name, origArgs, cid⟩] [] [] 1 fid = _
    unfold gateLoop
    rw [setLastToolCalls_concat]
  · intro s hs
    have hsb : (s == "") = false := by
      simp only [beq_eq_false_iff_ne, ne_eq]
      exact hs
    unfold hitl_gate
    rw [List.getLast?_concat]
    show gateLoop _ [⟨name, origArgs, cid⟩] [⟨name, origArgs, cid⟩] _ 0 fid = _
    unfold gateLoop
    rw [if_pos hname]
    simp [editRawDecision, dGetD, dGet, isStrV, Val.truthy, hsb]

/-- Claim C5 witness: concrete instances of the amended behavior. -/
theorem edit_nonmapping_payload_fallback_or_error_witness :
    (hitl_gate c5Messages [editRawDecision .null] 2
      = ⟨1, .state c5Messages⟩) ∧
    (hitl_gate c5Messages [editRawDecision (.vstr "x")] 2
      = ⟨1, .error .attributeError⟩) := by
  have h := edit_nonmapping_payload_fallback_or_error [Msg.human 0 "send the note"] 1 ""
    "send-mail" (.vdict [("to", .vstr "a@example.com")]) "c1" 2 (by decide)
  exact ⟨h.1, h.2.2 "x" (by decide)⟩

/-- Claim C6, counterexample: a parse failure with no prior tool output
yields the answer "Error: <exception>" rather than the claimed
"I could not complete the request". -/
theorem parse_failure_without_output_error_answer :
    run_sub_agent c6Env (fun _ => .parseError "boom") = "Error: boom" ∧
    ¬("Error: boom" = "I could not complete the request") := by
  refine ⟨rfl, by decide⟩

/-- Claim C6 (amended): when the decision output of an iteration cannot be
parsed, the sub-agent answers with the last raw tool output truncated to
2000 characters when a non-empty one exists, and otherwise with
"Error: " followed by the exception text (never the fixed string
"I could not complete the request"). -/
theorem parse_failure_fallback_behavior
    (env : SubAgentEnv) (script : Nat → LLMOutcome) (i fuel : Nat) (st : SubSt)
    (e : String) (hs : script i = .parseError e)
    (hinv : st.toolResults = [] → st.lastRaw = none) :
    runSubAgentAux env script i (fuel + 1) st
      = (match st.lastRaw with
         | some r => if r == "" then "Error: " ++ e else pyTake r 2000
         | none => "Error: " ++ e) ∧
    (∀ r, st.lastRaw = some r → (pyTake r 2000).length ≤ 2000) := by
  constructor
  · unfold runSubAgentAux
    rw [hs]
    cases hlr : st.lastRaw with
    | none => simp [rawTruthy, hlr]
    | some r =>
      by_cases hr : r == ""
      · simp [rawTruthy, hlr, hr]
      · have hne : ¬(st.toolResults = []) := by
          intro hemp
          rw [hinv hemp] at hlr
          cases hlr
        simp [rawTruthy, rawFallback, hlr, hr, List.isEmpty_iff, hne]
  · intro r _
    exact pyTake_length r 2000

/-- Claim C6 witness: a parse failure after a successful tool call returns
the truncated raw tool output. -/
theorem parse_failure_fallback_behavior_witness :
    runSubAgentAux c6Env (fun _ => .parseError "bad") 1 4
        ⟨["Tool \x27t\x27 returned: data"], some "data"⟩
      = pyTake "data" 2000 ∧ (pyTake "data" 2000).length ≤ 2000 := by
  have h := parse_failure_fallback_behavior c6Env (fun _ => .parseError "bad") 1 3
    ⟨["Tool \x27t\x27 returned: data"], some "data"⟩ "bad" rfl (by intro hh; cases hh)
  exact ⟨h.1, h.2 "data" rfl⟩

/-- Claim C7: the transcript embedded in the tool-selection prompt is the
`[-10:]` suffix of the conversation history — at most ten lines, and
always the most recent ones — regardless of how long the log is, so it
spans at most the ten most recent completed exchanges. -/
theorem prompt_history_bounded_most_recent_ten (msgs : List Msg) (input : String) :
    (promptHistoryLines msgs input).length ≤ 10 ∧
    (promptHistoryLines msgs input).IsSuffix (reconcile msgs input).conversationHistory := by
  constructor
  · show (((reconcile msgs input).conversationHistory).drop _).length ≤ 10
    rw [List.length_drop]
    omega
  · exact List.drop_suffix _ _

/-- Claim C8: resuming a thread that is not interrupted fails with an HTTP
400 invalid-state error naming the current status, and leaves the thread
store untouched, on both the plain and the streaming endpoint. -/
theorem resume_noninterrupted_invalidstate_unchanged
    (ts : ThreadStore) (tid : String) (g : GraphOut) (st : String)
    (hfound : getThread ts tid = some st) (hni : ¬(st = "interrupted")) :
    resume_thread ts tid g
      = (ts, .httpError 400 ("Thread " ++ tid ++ " is not interrupted (status: " ++ st ++ ")")) ∧
    resume_thread_stream ts tid
      = (ts, .httpError 400 ("Thread " ++ tid ++ " is not interrupted (status: " ++ st ++ ")")) := by
  have hb : (st == "interrupted") = false := by
    simp only [beq_eq_false_iff_ne, ne_eq]
    exact hni
  constructor
  · unfold resume_thread
    rw [hfound]
    simp [hb]
  · unfold resume_thread_stream
    rw [hfound]
    simp [hb]

/-- Claim C8 witness: resuming an idle thread. -/
theorem resume_noninterrupted_invalidstate_unchanged_witness :
    resume_thread [("t1", "idle")] "t1" .completed
      = ([("t1", "idle")], .httpError 400 "Thread t1 is not interrupted (status: idle)") ∧
    resume_thread_stream [("t1", "idle")] "t1"
      = ([("t1", "idle")], .httpError 400 "Thread t1 is not interrupted (status: idle)") := by
  have h := resume_noninterrupted_invalidstate_unchanged [("t1", "idle")] "t1" .completed
    "idle" rfl (by decide)
  exact ⟨h.1, h.2⟩

/-- Claim C9: the text-search fallback returns at most `top_k` results,
ordered by descending score, every returned result matches at least one
query word (positive score), and the empty result is a valid outcome. -/
theorem text_search_bounded_sorted_positive :
    (∀ (stored : List (String × Email)) (query : String) (topK : Nat),
       (search stored query topK).length ≤ topK ∧
       (search stored query topK).Pairwise (fun a b => b.score ≤ a.score) ∧
       (∀ r ∈ search stored query topK, 0 < r.score)) ∧
    (∀ (query : String) (topK : Nat), search [] query topK = []) := by
  constructor
  · intro stored query topK
    refine ⟨?_, ?_, ?_⟩
    · unfold search _text_search
      exact List.length_take_le _ _
    · unfold search _text_search
      exact List.Pairwise.sublist (List.take_sublist _ _) (pairwise_sortByScoreDesc _)
    · intro r hr
      unfold search _text_search at hr
      have hr2 := (List.take_sublist _ _).subset hr
      have hr3 := (mem_sortByScoreDesc r _).mp hr2
      rcases List.mem_filterMap.mp hr3 with ⟨p, _, hcand⟩
      exact textCandidate_score_pos _ p.2 p.1 r hcand
  · intro query topK
    unfold search _text_search
    exact List.take_nil

/-- Claim C9 witness: a concrete search with one positive-scoring hit. -/
theorem text_search_bounded_sorted_positive_witness :
    (search c9Stored "lunch" 5).length ≤ 5 ∧
    0 < c9Hit.score ∧ c9Hit ∈ search c9Stored "lunch" 5 := by
  have hs : search c9Stored "lunch" 5 = [c9Hit] := rfl
  refine ⟨(text_search_bounded_sorted_positive.1 c9Stored "lunch" 5).1, ?_, ?_⟩
  · refine (text_search_bounded_sorted_positive.1 c9Stored "lunch" 5).2.2 c9Hit ?_
    rw [hs]
    exact List.mem_singleton_self _
  · rw [hs]
    exact List.mem_singleton_self _

/-- Claim C10: the email identifier is the first 16 hex digits of the
SHA-256 of the concatenated author, subject and body — equal on any two
emails agreeing on those three fields, 16 characters long — and storing an
email whose identifier is already present returns `None` and leaves the
store unchanged. -/
theorem email_id_deterministic_duplicate_skip :
    (∀ e : Email,
       emailId e = pyTake (hexDigest (sha256 (strBytes (e.author ++ e.subject ++ e.body)))) 16) ∧
    (∀ e1 e2 : Email, e1.author = e2.author → e1.subject = e2.subject →
       e1.body = e2.body → emailId e1 = emailId e2) ∧
    (∀ e : Email, (emailId e).length = 16) ∧
    (∀ (stored : List (String × Email)) (e : Email),
       stored.any (fun p => p.1 == emailId e) = true →
       store_email stored e = (none, stored)) := by
  refine ⟨fun e => rfl, ?_, ?_, ?_⟩
  · intro e1 e2 h1 h2 h3
    unfold emailId
    rw [h1, h2, h3]
  · intro e
    unfold emailId
    rw [pyTake_length_eq, hexDigest_length, sha256_length]
    decide
  · intro stored e h
    unfold store_email
    dsimp only []
    rw [if_pos h]

/-- Claim C10 witness: identifiers agree across differing recipients and
dates, have 16 characters, and a duplicate store is skipped. -/
theorem email_id_deterministic_duplicate_skip_witness :
    emailId c10Email = emailId c10EmailB ∧
    (emailId c10Email).length = 16 ∧
    store_email [(emailId c10Email, c10Email)] c10Email
      = (none, [(emailId c10Email, c10Email)]) := by
  refine ⟨email_id_deterministic_duplicate_skip.2.1 c10Email c10EmailB rfl rfl rfl,
    email_id_deterministic_duplicate_skip.2.2.1 c10Email,
    email_id_deterministic_duplicate_skip.2.2.2 [(emailId c10Email, c10Email)] c10Email ?_⟩
  decide

end EmailAgent
